import Mathlib

/-!
# Students REST API: a shallow embedding

The development follows the Go packages of the repository:

* `internal/types`            : the `Students` record and its validation tags
* `internal/utils/response`   : `WriteJson`, `GeneralError`, `ValidationError`
* `internal/storage/sqlite`   : `CreateStudent`, `GetStudentById`, `GetStudents`
* `internal/http/handlers/student` : the handlers `New`, `GetById`, `GetStudents`

Go strings are rendered as Lean strings, `int` and `int64` as `Int`, a Go
`(value, error)` result as `Except GoError value` (the zero value that Go
returns next to a non-nil error is dropped; no caller reads it).  Logging
calls (`slog`) have no effect on responses or storage and are left out.
-/

set_option autoImplicit false

namespace StudentsApi

/-! ## Go runtime values -/

/-- Go `error` values that the program builds or receives. -/
inductive GoError where
  /-- the value of `errors.New(s)` and of `fmt.Errorf` without `%w` -/
  | errorString (s : String)
  /-- the value of `fmt.Errorf` with one `%w` verb: the text and the wrapped error -/
  | wrapError (msg : String) (err : GoError)
  /-- the sentinel `sql.ErrNoRows` -/
  | errNoRows
  /-- the sentinel `io.EOF` -/
  | eof
  /-- a `sqlite3.Error` of the driver: its exported fields and its text -/
  | driver (code extendedCode systemErrno : Int) (msg : String)
  deriving DecidableEq, Repr

/-- The method `Error()` of an error value. -/
def GoError.Error : GoError → String
  | .errorString s => s
  | .wrapError msg _ => msg
  | .errNoRows => "sql: no rows in result set"
  | .eof => "EOF"
  | .driver _ _ _ msg => msg

/-- The call `errors.Is(err, target)`: `target` is found along the `Unwrap` chain. -/
def errorsIs : GoError → GoError → Bool
  | .wrapError msg inner, target =>
      decide (GoError.wrapError msg inner = target) || errorsIs inner target
  | e, target => decide (e = target)

/-- Rendering of the verb `%d` for an integer. -/
def fmtD : Int → String
  | Int.ofNat n => toString n
  | Int.negSucc n => "-" ++ toString (n + 1)

/-- A Go slice value: the `nil` slice, or a slice over a sequence of elements. -/
inductive Slice (α : Type) where
  | nil
  | mk (elems : List α)
  deriving DecidableEq, Repr

/-- The elements of a slice; `nil` has none. -/
def Slice.toList {α : Type} : Slice α → List α
  | .nil => []
  | .mk xs => xs

/-- The builtin `append(s, x)`: the result is never `nil`. -/
def Slice.append {α : Type} (s : Slice α) (x : α) : Slice α :=
  .mk (s.toList ++ [x])

/-- The call `strings.Join(elems, sep)`. -/
def stringsJoin (elems : Slice String) (sep : String) : String :=
  sep.intercalate elems.toList

/-! ## `internal/types` -/

/-- The struct `types.Students`, fields in declaration order. -/
structure Students where
  Id : Int
  Name : String
  Age : Int
  Email : String
  deriving DecidableEq, Repr

/-! ## JSON values and `encoding/json` -/

/-- A JSON document. -/
inductive Json where
  | null
  | number (n : Int)
  | string (s : String)
  | array (xs : List Json)
  | object (fields : List (String × Json))

/-! ## `internal/utils/response` -/

/-- The struct `response.Response`. -/
structure Response where
  Status : String
  Error : String
  deriving DecidableEq, Repr

def StatusOk : String := "OK"

def StatusError : String := "Error"

/-- The values passed as `data interface{}` to `WriteJson` anywhere in the program. -/
inductive Payload where
  /-- a `response.Response` -/
  | response (r : Response)
  /-- a bare `error` value -/
  | goError (e : GoError)
  /-- a `map[string]int64` given by its entries -/
  | idMap (entries : List (String × Int))
  /-- a `types.Students` -/
  | student (s : Students)
  /-- a `[]types.Students` -/
  | students (ss : Slice Students)
  deriving DecidableEq, Repr

/-- How `encoding/json` renders a `types.Students` (keys from the `json` tags). -/
def marshalStudent (s : Students) : Json :=
  .object [("id", .number s.Id), ("name", .string s.Name), ("age", .number s.Age),
    ("email", .string s.Email)]

/-- How `encoding/json` renders an error value: the object of its exported fields.
Only `sqlite3.Error` has any. -/
def marshalError : GoError → Json
  | .driver code extendedCode systemErrno _ =>
      .object [("Code", .number code), ("ExtendedCode", .number extendedCode),
        ("SystemErrno", .number systemErrno)]
  | _ => .object []

/-- How `encoding/json` renders a payload.  A `nil` slice is rendered `null`,
a non-nil slice as an array. -/
def marshal : Payload → Json
  | .response r => .object [("status", .string r.Status), ("error", .string r.Error)]
  | .goError e => marshalError e
  | .idMap entries => .object (entries.map fun kv => (kv.1, Json.number kv.2))
  | .student s => marshalStudent s
  | .students .nil => .null
  | .students (.mk xs) => .array (xs.map marshalStudent)

/-- An `http.Header`: keys with their value. -/
abbrev Header := List (String × String)

/-- The method `Header.Set`: the value of `key` is replaced. -/
def Header.Set (h : Header) (key value : String) : Header :=
  (key, value) :: h.filter fun kv => kv.1 != key

/-- The method `Header.Get`; the empty string when the key is absent. -/
def Header.Get (h : Header) (key : String) : String :=
  match h.find? fun kv => kv.1 == key with
  | some kv => kv.2
  | none => ""

/-- An `http.ResponseWriter`: the header map still open to changes, the status
line with the header block as sent by the first `WriteHeader`, and the values
encoded into the body so far. -/
structure ResponseWriter where
  header : Header
  sent : Option (Int × Header)
  body : List Payload
  deriving DecidableEq, Repr

/-- A writer nothing has been written to. -/
def ResponseWriter.fresh : ResponseWriter := { header := [], sent := none, body := [] }

/-- The method `WriteHeader`: the first call fixes status and headers. -/
def ResponseWriter.WriteHeader (w : ResponseWriter) (status : Int) : ResponseWriter :=
  match w.sent with
  | some _ => w
  | none => { w with sent := some (status, w.header) }

/-- The call `json.NewEncoder(w).Encode(data)`: one document appended to the body
(a write before any `WriteHeader` sends status 200 first). -/
def ResponseWriter.Encode (w : ResponseWriter) (data : Payload) : ResponseWriter :=
  let w1 := match w.sent with
    | some _ => w
    | none => w.WriteHeader 200
  { w1 with body := w1.body ++ [data] }

/-- The status code of the response, once sent. -/
def ResponseWriter.status (w : ResponseWriter) : Option Int := w.sent.map Prod.fst

/-- The `Content-Type` of the response as sent. -/
def ResponseWriter.contentType (w : ResponseWriter) : Option String :=
  w.sent.map fun p => Header.Get p.2 "Content-Type"

/-- The function `response.WriteJson`. -/
def WriteJson (w : ResponseWriter) (status : Int) (data : Payload) : ResponseWriter :=
  let w1 := { w with header := Header.Set w.header "Content-Type" "appliaction/json" }
  let w2 := w1.WriteHeader status
  w2.Encode data

/-- The function `response.GeneralError`. -/
def GeneralError (err : GoError) : Response :=
  { Status := StatusError, Error := err.Error }

/-- One `validator.FieldError`, as far as the program reads it. -/
structure FieldError where
  /-- the result of `Field()` -/
  field : String
  /-- the result of `ActualTag()` -/
  actualTag : String
  deriving DecidableEq, Repr

/-- The function `response.ValidationError`. -/
def ValidationError (errs : List FieldError) : Response :=
  let errMsgs : Slice String := errs.foldl
    (fun errMsgs err =>
      if err.actualTag = "required" then
        errMsgs.append ("field " ++ err.field ++ " is required files")
      else
        errMsgs.append ("field " ++ err.field ++ " is invalid "))
    Slice.nil
  { Status := StatusError, Error := stringsJoin errMsgs ", " }

/-! ## `github.com/go-playground/validator` on `types.Students` -/

/-- The call `validator.New().Struct(student)` for the tags of `types.Students`:
`Name` is `required`, `Age` is `gte=1,lte=120`, `Email` is `required,email`; `Id`
carries no tag.  Fields are visited in declaration order and a field reports its
first failing tag only.  The result is the `ValidationErrors` slice (empty when
the call returns `nil`).  The library's `email` rule is the parameter `isEmail`. -/
def validateStruct (isEmail : String → Bool) (student : Students) : List FieldError :=
  (if student.Name = "" then [{ field := "Name", actualTag := "required" }] else [])
  ++ (if student.Age < 1 then [{ field := "Age", actualTag := "gte" }]
      else if student.Age > 120 then [{ field := "Age", actualTag := "lte" }]
      else [])
  ++ (if student.Email = "" then [{ field := "Email", actualTag := "required" }]
      else if isEmail student.Email = false then [{ field := "Email", actualTag := "email" }]
      else [])

/-! ## `strconv.ParseInt(s, 10, 64)` -/

/-- The two kinds of `*strconv.NumError`. -/
inductive NumError where
  | invalid
  | outOfRange
  deriving DecidableEq, Repr

def maxUint64 : Nat := 2 ^ 64 - 1

/-- The digit loop of `strconv.ParseUint` for base 10 and 64 bits, on the
remaining characters with accumulator `n`.  A range failure still yields the
saturated value, as in Go. -/
def parseUintLoop : List Char → Nat → Nat × Option NumError
  | [], n => (n, none)
  | c :: cs, n =>
    if '0' ≤ c ∧ c ≤ '9' then
      let d := c.toNat - '0'.toNat
      if n ≥ maxUint64 / 10 + 1 then (maxUint64, some .outOfRange)
      else
        let n10 := (n * 10) % 2 ^ 64
        let n1 := (n10 + d) % 2 ^ 64
        if n1 < n10 ∨ n1 > maxUint64 then (maxUint64, some .outOfRange)
        else parseUintLoop cs n1
    else (0, some .invalid)

/-- The function `strconv.ParseUint(s, 10, 64)` on the characters of `s`.  Every
character other than a decimal digit is a syntax error (base 10 admits neither
letters nor underscores). -/
def ParseUint (s : List Char) : Nat × Option NumError :=
  if s = [] then (0, some .invalid) else parseUintLoop s 0

/-- The function `strconv.ParseInt(s, 10, 64)`. -/
def ParseInt (s : String) : Except NumError Int :=
  match s.toList with
  | [] => .error .invalid
  | c :: cs =>
    let neg := decide (c = '-')
    let rest := if c = '+' ∨ c = '-' then cs else c :: cs
    match ParseUint rest with
    | (_, some .invalid) => .error .invalid
    | (un, _) =>
      let cutoff : Nat := 2 ^ 63
      if neg = false ∧ un ≥ cutoff then .error .outOfRange
      else if neg = true ∧ un > cutoff then .error .outOfRange
      else if neg then .ok (-(un : Int)) else .ok (un : Int)

/-! ## `internal/storage` -/

/-- Modelled from the spec: the interface `storage.Storage` (its declaring file,
internal/storage/storage.go, is not among the sources).  The spec gives the three
operations `CreateStudent(name, email, age) → (id, error)`,
`GetStudentById(id) → (record, error)` and `GetStudents() → (records, error)`;
the signatures are those of the `Sqlite` methods.  An implementation acts on a
state of type `σ`. -/
structure Storage (σ : Type) where
  CreateStudent : σ → String → String → Int → Except GoError Int × σ
  GetStudentById : σ → Int → Except GoError Students × σ
  GetStudents : σ → Except GoError (Slice Students) × σ

/-- One call on a `storage.Storage`, with its arguments. -/
inductive StorageCall where
  | CreateStudent (name email : String) (age : Int)
  | GetStudentById (id : Int)
  | GetStudents
  deriving DecidableEq, Repr

/-- The storage `st` observed: it behaves as `st` and appends every call it
receives to a log kept beside the state of `st`. -/
def Storage.recording {σ : Type} (st : Storage σ) : Storage (σ × List StorageCall) where
  CreateStudent := fun s name email age =>
    let r := st.CreateStudent s.1 name email age
    (r.1, (r.2, s.2 ++ [StorageCall.CreateStudent name email age]))
  GetStudentById := fun s id =>
    let r := st.GetStudentById s.1 id
    (r.1, (r.2, s.2 ++ [StorageCall.GetStudentById id]))
  GetStudents := fun s =>
    let r := st.GetStudents s.1
    (r.1, (r.2, s.2 ++ [StorageCall.GetStudents]))

/-! ## `database/sql` as used by `internal/storage/sqlite` -/

/-- A value bound to a statement parameter or held by a result column. -/
inductive SqlValue where
  | integer (n : Int)
  | text (s : String)
  | null
  deriving DecidableEq, Repr

/-- A prepared statement `*sql.Stmt`, known by its SQL text. -/
structure Stmt where
  query : String
  deriving DecidableEq, Repr

/-- An `sql.Result`: the outcome of its method `LastInsertId()`. -/
structure SqlResult where
  LastInsertId : Except GoError Int

/-- The handle `*sql.DB` over a database in state `σ`: the three methods the
package calls.  `Query` yields the result rows, each a list of column values. -/
structure SqlDB (σ : Type) where
  Prepare : σ → String → Except GoError Stmt
  Exec : σ → Stmt → List SqlValue → Except GoError SqlResult × σ
  Query : σ → Stmt → List SqlValue → Except GoError (List (List SqlValue))

/-- The conversion `database/sql` applies when scanning a column into an `int64`
or `int` destination. -/
def scanInt : SqlValue → Except GoError Int
  | .integer n => .ok n
  | .text s =>
    match ParseInt s with
    | .ok n => .ok n
    | .error _ => .error (.errorString "sql: Scan error: converting string to int")
  | .null => .error (.errorString "sql: Scan error: converting NULL to int is unsupported")

/-- The conversion `database/sql` applies when scanning a column into a `string`
destination. -/
def scanString : SqlValue → Except GoError String
  | .text s => .ok s
  | .integer n => .ok (fmtD n)
  | .null => .error (.errorString "sql: Scan error: converting NULL to string is unsupported")

/-- The call `Scan(&student.Id, &student.Name, &student.Email, &student.Age)` on
one result row. -/
def scanStudent : List SqlValue → Except GoError Students
  | [c0, c1, c2, c3] =>
    match scanInt c0 with
    | .error err => .error err
    | .ok id =>
      match scanString c1 with
      | .error err => .error err
      | .ok name =>
        match scanString c2 with
        | .error err => .error err
        | .ok email =>
          match scanInt c3 with
          | .error err => .error err
          | .ok age => .ok { Id := id, Name := name, Email := email, Age := age }
  | _ => .error (.errorString "sql: expected 4 destination arguments in Scan")

/-- The call `stmt.QueryRow(args...).Scan(dest...)`: the query error if any,
`sql.ErrNoRows` on an empty result, else the scan of the first row. -/
def queryRowScan {σ : Type} (db : SqlDB σ) (s : σ) (stmt : Stmt) (args : List SqlValue) :
    Except GoError Students :=
  match db.Query s stmt args with
  | .error err => .error err
  | .ok [] => .error .errNoRows
  | .ok (row :: _) => scanStudent row

/-! ## `internal/storage/sqlite` -/

namespace Sqlite

/-- The method `(*Sqlite).CreateStudent`. -/
def CreateStudent {σ : Type} (db : SqlDB σ) (s : σ) (name email : String) (age : Int) :
    Except GoError Int × σ :=
  match db.Prepare s "INSERT INTO students (name,email,age) VALUES(?,?,?)" with
  | .error err => (.error err, s)
  | .ok stmt =>
    match db.Exec s stmt [.text name, .text email, .integer age] with
    | (.error err, s1) => (.error err, s1)
    | (.ok result, s1) =>
      match result.LastInsertId with
      | .error err => (.error err, s1)
      | .ok lastId => (.ok lastId, s1)

/-- The method `(*Sqlite).GetStudentById`. -/
def GetStudentById {σ : Type} (db : SqlDB σ) (s : σ) (id : Int) : Except GoError Students :=
  match db.Prepare s "SELECT id, name, email, age FROM students WHERE id = ? LIMIT 1" with
  | .error err => .error err
  | .ok stmt =>
    match queryRowScan db s stmt [.integer id] with
    | .error err =>
      if err = .errNoRows then
        .error (.errorString ("student with id " ++ fmtD id ++ " not found"))
      else
        .error (.wrapError ("query error: " ++ err.Error) err)
    | .ok student => .ok student

/-- The loop `for rows.Next() { ... rows.Scan ...; students = append(students, student) }`
of `GetStudents`, on the rows still to come. -/
def scanRows : List (List SqlValue) → Slice Students → Except GoError (Slice Students)
  | [], students => .ok students
  | row :: rows, students =>
    match scanStudent row with
    | .error err => .error err
    | .ok student => scanRows rows (students.append student)

/-- The method `(*Sqlite).GetStudents`. -/
def GetStudents {σ : Type} (db : SqlDB σ) (s : σ) : Except GoError (Slice Students) :=
  match db.Prepare s "SELECT id,name,email,age FROM students" with
  | .error err => .error err
  | .ok stmt =>
    match db.Query s stmt [] with
    | .error err => .error err
    | .ok rows => scanRows rows Slice.nil

/-- The `*Sqlite` value as a `storage.Storage`. -/
def storage {σ : Type} (db : SqlDB σ) : Storage σ where
  CreateStudent := fun s name email age => CreateStudent db s name email age
  GetStudentById := fun s id => (GetStudentById db s id, s)
  GetStudents := fun s => (GetStudents db s, s)

end Sqlite

/-! ## The `students` table in SQLite

The engine behind the handle is not part of the repository.  Its behaviour on the
table that `sqlite.New` creates,
`students(id INTEGER PRIMARY KEY AUTOINCREMENT, name TEXT, email TEXT, age INTEGER)`,
and on the three statements that the package prepares is modelled here.
-/

/-- One row of the table `students`. -/
structure Row where
  id : Int
  name : String
  email : String
  age : Int
  deriving DecidableEq, Repr

/-- The table `students`: its rows and the `sqlite_sequence` counter kept for
`AUTOINCREMENT` (the largest rowid handed out so far). -/
structure Table where
  rows : List Row
  seq : Int
  deriving DecidableEq, Repr

/-- The largest rowid: `9223372036854775807`. -/
def maxRowid : Int := 2 ^ 63 - 1

/-- The largest `id` among the rows, `none` for no rows. -/
def largestId : List Row → Option Int
  | [] => none
  | r :: rs =>
    match largestId rs with
    | none => some r.id
    | some m => some (max r.id m)

/-- The rowid an `AUTOINCREMENT` insert is given: one more than the largest rowid
in the table and than the counter; `none` (`SQLITE_FULL`) once either has reached
the largest rowid. -/
def newRowid (t : Table) : Option Int :=
  let v : Int := match largestId t.rows with
    | none => 1
    | some m => m + 1
  if largestId t.rows = some maxRowid ∨ t.seq = maxRowid then none
  else some (max v (t.seq + 1))

/-- The columns `id, name, email, age` of a row. -/
def Row.values (r : Row) : List SqlValue :=
  [.integer r.id, .text r.name, .text r.email, .integer r.age]

/-- The SQLite engine on the table `students`, for the statements of the package. -/
def sqlite3 : SqlDB Table where
  Prepare := fun _ query =>
    if query = "INSERT INTO students (name,email,age) VALUES(?,?,?)"
        ∨ query = "SELECT id, name, email, age FROM students WHERE id = ? LIMIT 1"
        ∨ query = "SELECT id,name,email,age FROM students" then
      .ok { query := query }
    else .error (.driver 1 1 0 "statement outside the model")
  Exec := fun t stmt args =>
    if stmt.query = "INSERT INTO students (name,email,age) VALUES(?,?,?)" then
      match args with
      | [.text name, .text email, .integer age] =>
        match newRowid t with
        | none => (.error (.driver 13 13 0 "database or disk is full"), t)
        | some id =>
          (.ok { LastInsertId := .ok id },
            { rows := t.rows ++ [{ id := id, name := name, email := email, age := age }],
              seq := id })
      | _ => (.error (.driver 1 1 0 "arguments outside the model"), t)
    else (.error (.driver 1 1 0 "statement outside the model"), t)
  Query := fun t stmt args =>
    if stmt.query = "SELECT id, name, email, age FROM students WHERE id = ? LIMIT 1" then
      match args with
      | [.integer id] => .ok (((t.rows.filter fun r => r.id = id).take 1).map Row.values)
      | _ => .error (.driver 1 1 0 "arguments outside the model")
    else if stmt.query = "SELECT id,name,email,age FROM students" then
      .ok (t.rows.map Row.values)
    else .error (.driver 1 1 0 "statement outside the model")

/-- The storage the process runs on: the `Sqlite` methods over the SQLite table. -/
def sqliteStorage : Storage Table := Sqlite.storage sqlite3

/-! ## `internal/http/handlers/student` -/

/-- What a handler reads of an `*http.Request`: the outcome of
`json.NewDecoder(req.Body).Decode(&student)` and the value of
`req.PathValue("id")`. -/
structure Request where
  decoded : Except GoError Students
  pathId : String

/-- The handler returned by `student.New(storage)`. -/
def New {σ : Type} (isEmail : String → Bool) (storage : Storage σ) (s : σ)
    (res : ResponseWriter) (req : Request) : ResponseWriter × σ :=
  match req.decoded with
  | .error err =>
    if errorsIs err .eof then
      (WriteJson res 400 (.response (GeneralError (.errorString "empty Body"))), s)
    else
      (WriteJson res 400 (.response (GeneralError err)), s)
  | .ok student =>
    match validateStruct isEmail student with
    | e :: es => (WriteJson res 400 (.response (ValidationError (e :: es))), s)
    | [] =>
      match storage.CreateStudent s student.Name student.Email student.Age with
      | (.error err, s1) => (WriteJson res 500 (.goError err), s1)
      | (.ok lastId, s1) => (WriteJson res 201 (.idMap [("id", lastId)]), s1)

/-- The handler returned by `student.GetById(storage)`. -/
def GetById {σ : Type} (storage : Storage σ) (s : σ)
    (res : ResponseWriter) (req : Request) : ResponseWriter × σ :=
  let id := req.pathId
  match ParseInt id with
  | .error _ =>
    (WriteJson res 400 (.response (GeneralError (.errorString "invalid id format"))), s)
  | .ok intId =>
    match storage.GetStudentById s intId with
    | (.error err, s1) => (WriteJson res 500 (.response (GeneralError err)), s1)
    | (.ok student, s1) => (WriteJson res 200 (.student student), s1)

/-- The handler returned by `student.GetStudents(storage)`. -/
def GetStudents {σ : Type} (storage : Storage σ) (s : σ)
    (res : ResponseWriter) (_req : Request) : ResponseWriter × σ :=
  match storage.GetStudents s with
  | (.error err, s1) => (WriteJson res 500 (.response (GeneralError err)), s1)
  | (.ok students, s1) => (WriteJson res 200 (.students students), s1)



/-! ## Vocabulary of the statements -/

/-- A text names a field when the field's name occurs in it. -/
def Names (text field : String) : Prop := ∃ pre post : String, text = pre ++ field ++ post

/-- The message `ValidationError` builds for one violation. -/
def violationMessage (e : FieldError) : String :=
  if e.actualTag = "required" then "field " ++ e.field ++ " is required files"
  else "field " ++ e.field ++ " is invalid "

/-! ## Sample inputs -/

/-- A stand-in for the library's `email` rule: the text holds an `@`. -/
def sampleEmailRule : String → Bool := fun e => e.toList.any fun c => c == '@'

/-- The table right after `sqlite.New` created it. -/
def emptyTable : Table := { rows := [], seq := 0 }

/-- A table whose `AUTOINCREMENT` counter has reached the largest rowid. -/
def fullTable : Table := { rows := [], seq := maxRowid }

/-- The record of the spec's scenario, sent with a caller-chosen id. -/
def ann : Students := { Id := 77, Name := "Ann", Age := 30, Email := "ann@x.com" }

/-- A record that breaks all three rules. -/
def nobody : Students := { Id := 0, Name := "", Age := 0, Email := "nobody" }

/-- A handle whose database lost the table `students`: preparing any statement
fails in the driver; nothing can be executed. -/
def droppedTable : SqlDB Unit where
  Prepare := fun _ _ => .error (.driver 1 1 0 "no such table: students")
  Exec := fun _ _ _ => (.error (.driver 21 21 0 "bad parameter or other API misuse"), ())
  Query := fun _ _ _ => .error (.driver 21 21 0 "bad parameter or other API misuse")

/-- A handle whose queries fail while running (the database file is locked). -/
def lockedDB : SqlDB Unit where
  Prepare := fun _ query => .ok { query := query }
  Exec := fun _ _ _ => (.error (.driver 5 5 0 "database is locked"), ())
  Query := fun _ _ _ => .error (.driver 5 5 0 "database is locked")

/-! ## Auxiliary facts -/

theorem intercalate_go_append (sep : String) :
    ∀ (rest : List String) (acc : String),
      ∃ post : String, String.intercalate.go acc sep rest = acc ++ post
  | [], acc => ⟨"", by simp [String.intercalate.go]⟩
  | a :: rest, acc => by
    obtain ⟨post, hpost⟩ := intercalate_go_append sep rest (acc ++ sep ++ a)
    refine ⟨sep ++ a ++ post, ?_⟩
    simp only [String.intercalate.go]
    rw [hpost]
    simp [String.append_assoc]

theorem intercalate_go_mem (sep : String) :
    ∀ (rest : List String) (acc m : String), m ∈ rest →
      ∃ pre post : String, String.intercalate.go acc sep rest = pre ++ m ++ post
  | [], _, _, h => by cases h
  | a :: rest, acc, m, h => by
    rcases List.mem_cons.mp h with rfl | h
    · obtain ⟨post, hpost⟩ := intercalate_go_append sep rest (acc ++ sep ++ m)
      refine ⟨acc ++ sep, post, ?_⟩
      simp only [String.intercalate.go]
      rw [hpost]
    · obtain ⟨pre, post, hp⟩ := intercalate_go_mem sep rest (acc ++ sep ++ a) m h
      exact ⟨pre, post, by simp [String.intercalate.go, hp]⟩

theorem intercalate_mem (sep m : String) (msgs : List String) (h : m ∈ msgs) :
    ∃ pre post : String, sep.intercalate msgs = pre ++ m ++ post := by
  cases msgs with
  | nil => cases h
  | cons a rest =>
    rcases List.mem_cons.mp h with rfl | h
    · obtain ⟨post, hpost⟩ := intercalate_go_append sep rest m
      exact ⟨"", post, by simp [String.intercalate, hpost]⟩
    · exact intercalate_go_mem sep rest a m h

theorem foldl_messages (errs : List FieldError) :
    ∀ acc : Slice String,
      (errs.foldl
        (fun errMsgs err =>
          if err.actualTag = "required" then
            errMsgs.append ("field " ++ err.field ++ " is required files")
          else
            errMsgs.append ("field " ++ err.field ++ " is invalid "))
        acc).toList = acc.toList ++ errs.map violationMessage := by
  induction errs with
  | nil => intro acc; simp
  | cons e es ih =>
    intro acc
    simp only [List.foldl_cons, List.map_cons]
    rw [ih]
    by_cases h : e.actualTag = "required" <;> simp [h, Slice.append, Slice.toList, violationMessage]

theorem ValidationError_eq (errs : List FieldError) :
    ValidationError errs =
      { Status := "Error", Error := ", ".intercalate (errs.map violationMessage) } := by
  simp only [ValidationError, stringsJoin, foldl_messages]
  simp [Slice.toList, StatusError]

theorem ValidationError_names (errs : List FieldError) (e : FieldError) (h : e ∈ errs) :
    Names (ValidationError errs).Error e.field := by
  rw [ValidationError_eq]
  obtain ⟨pre, post, hp⟩ :=
    intercalate_mem ", " (violationMessage e) (errs.map violationMessage)
      (List.mem_map_of_mem _ h)
  by_cases ht : e.actualTag = "required"
  · exact ⟨pre ++ "field ", " is required files" ++ post, by
      simp [hp, violationMessage, ht, String.append_assoc]⟩
  · exact ⟨pre ++ "field ", " is invalid " ++ post, by
      simp [hp, violationMessage, ht, String.append_assoc]⟩

theorem validateStruct_eq_nil_iff (isEmail : String → Bool) (student : Students) :
    validateStruct isEmail student = [] ↔
      student.Name ≠ "" ∧ (1 ≤ student.Age ∧ student.Age ≤ 120) ∧
        (student.Email ≠ "" ∧ isEmail student.Email = true) := by
  unfold validateStruct
  by_cases h1 : student.Name = "" <;> by_cases h2 : student.Age < 1 <;>
    by_cases h3 : student.Age > 120 <;> by_cases h4 : student.Email = "" <;>
    by_cases h5 : isEmail student.Email = false
  all_goals simp [h1, h2, h3, h4, h5]
  all_goals omega



theorem WriteJson_fresh (status : Int) (data : Payload) :
    WriteJson ResponseWriter.fresh status data =
      { header := [("Content-Type", "appliaction/json")],
        sent := some (status, [("Content-Type", "appliaction/json")]),
        body := [data] } := by
  simp [WriteJson, ResponseWriter.fresh, ResponseWriter.WriteHeader, ResponseWriter.Encode,
    Header.Set]

theorem New_of_invalid {σ : Type} (isEmail : String → Bool) (storage : Storage σ) (s : σ)
    (res : ResponseWriter) (student : Students) (pathId : String)
    (h : validateStruct isEmail student ≠ []) :
    New isEmail storage s res { decoded := .ok student, pathId := pathId } =
      (WriteJson res 400 (.response (ValidationError (validateStruct isEmail student))), s) := by
  unfold New
  cases hv : validateStruct isEmail student with
  | nil => exact absurd hv h
  | cons e es => simp only [hv]

theorem New_of_valid {σ : Type} (isEmail : String → Bool) (storage : Storage σ) (s : σ)
    (res : ResponseWriter) (student : Students) (pathId : String)
    (h : validateStruct isEmail student = []) :
    New isEmail storage s res { decoded := .ok student, pathId := pathId } =
      match storage.CreateStudent s student.Name student.Email student.Age with
      | (.error err, s1) => (WriteJson res 500 (.goError err), s1)
      | (.ok lastId, s1) => (WriteJson res 201 (.idMap [("id", lastId)]), s1) := by
  unfold New
  simp [h]

/-- C1. A create request whose decoded record has an empty name, an empty or
invalid email, or an age outside [1,120] is answered with status 400 and an error
envelope whose text names every offending field (`Name`, `Email`, `Age`); the
storage receives no call and keeps its state. -/
theorem New_rejects_malformed_record {σ : Type} (isEmail : String → Bool)
    (storage : Storage σ) (s : σ) (student : Students) (pathId : String)
    (h : student.Name = "" ∨ (student.Email = "" ∨ isEmail student.Email = false) ∨
      (student.Age < 1 ∨ 120 < student.Age)) :
    ∃ text : String,
      (New isEmail storage.recording (s, []) ResponseWriter.fresh
          { decoded := .ok student, pathId := pathId }).1.status = some 400 ∧
      (New isEmail storage.recording (s, []) ResponseWriter.fresh
          { decoded := .ok student, pathId := pathId }).1.body =
        [Payload.response { Status := "Error", Error := text }] ∧
      (New isEmail storage.recording (s, []) ResponseWriter.fresh
          { decoded := .ok student, pathId := pathId }).2 = (s, []) ∧
      (student.Name = "" → Names text "Name") ∧
      (student.Email = "" ∨ isEmail student.Email = false → Names text "Email") ∧
      (student.Age < 1 ∨ 120 < student.Age → Names text "Age") := by
  have hne : validateStruct isEmail student ≠ [] := by
    intro hnil
    have hv := (validateStruct_eq_nil_iff isEmail student).mp hnil
    rcases h with h | h | h
    · exact hv.1 h
    · rcases h with h | h
      · exact hv.2.2.1 h
      · simp [hv.2.2.2] at h
    · omega
  refine ⟨(ValidationError (validateStruct isEmail student)).Error, ?_⟩
  rw [New_of_invalid isEmail _ _ _ _ _ hne, WriteJson_fresh]
  refine ⟨rfl, ?_, rfl, ?_, ?_, ?_⟩
  · simp [ValidationError_eq]
  · intro hn
    exact ValidationError_names _ { field := "Name", actualTag := "required" }
      (by simp [validateStruct, hn])
  · intro he
    by_cases he1 : student.Email = ""
    · exact ValidationError_names _ { field := "Email", actualTag := "required" }
        (by simp [validateStruct, he1])
    · have he2 : isEmail student.Email = false := by
        rcases he with he | he
        · exact absurd he he1
        · exact he
      exact ValidationError_names _ { field := "Email", actualTag := "email" }
        (by simp [validateStruct, he1, he2])
  · intro ha
    by_cases ha1 : student.Age < 1
    · exact ValidationError_names _ { field := "Age", actualTag := "gte" }
        (by simp [validateStruct, ha1])
    · have ha2 : student.Age > 120 := by omega
      exact ValidationError_names _ { field := "Age", actualTag := "lte" }
        (by simp [validateStruct, ha1, ha2])

/-- Witness of C1: the record `nobody` (empty name, email without `@`, age 0) on
the empty table. -/
theorem New_rejects_malformed_record_witness :
    ∃ text : String,
      (New sampleEmailRule sqliteStorage.recording (emptyTable, []) ResponseWriter.fresh
          { decoded := .ok nobody, pathId := "" }).1.status = some 400 ∧
      (New sampleEmailRule sqliteStorage.recording (emptyTable, []) ResponseWriter.fresh
          { decoded := .ok nobody, pathId := "" }).1.body =
        [Payload.response { Status := "Error", Error := text }] ∧
      (New sampleEmailRule sqliteStorage.recording (emptyTable, []) ResponseWriter.fresh
          { decoded := .ok nobody, pathId := "" }).2 = (emptyTable, []) ∧
      (nobody.Name = "" → Names text "Name") ∧
      (nobody.Email = "" ∨ sampleEmailRule nobody.Email = false → Names text "Email") ∧
      (nobody.Age < 1 ∨ 120 < nobody.Age → Names text "Age") :=
  New_rejects_malformed_record sampleEmailRule sqliteStorage emptyTable nobody ""
    (Or.inl (by decide))

/-- C2. A create request whose decoded record is well formed (non-empty name,
non-empty email accepted by the email rule, age in [1,120]) makes exactly one
storage call, `CreateStudent` with the record's name, email and age (the record's
`Id` is not passed on), and leaves the storage in the state that call produced;
when the call returns id `n` without error the response has status 201 and body
`{"id": n}`. -/
theorem New_calls_CreateStudent_once {σ : Type} (isEmail : String → Bool)
    (storage : Storage σ) (s : σ) (student : Students) (pathId : String)
    (hname : student.Name ≠ "")
    (hemail : student.Email ≠ "" ∧ isEmail student.Email = true)
    (hage : 1 ≤ student.Age ∧ student.Age ≤ 120) :
    (New isEmail storage.recording (s, []) ResponseWriter.fresh
        { decoded := .ok student, pathId := pathId }).2 =
      ((storage.CreateStudent s student.Name student.Email student.Age).2,
        [StorageCall.CreateStudent student.Name student.Email student.Age]) ∧
    ∀ n : Int, (storage.CreateStudent s student.Name student.Email student.Age).1 = .ok n →
      (New isEmail storage.recording (s, []) ResponseWriter.fresh
          { decoded := .ok student, pathId := pathId }).1.status = some 201 ∧
      (New isEmail storage.recording (s, []) ResponseWriter.fresh
          { decoded := .ok student, pathId := pathId }).1.body = [Payload.idMap [("id", n)]] ∧
      marshal (Payload.idMap [("id", n)]) = Json.object [("id", Json.number n)] := by
  have hv : validateStruct isEmail student = [] :=
    (validateStruct_eq_nil_iff isEmail student).mpr ⟨hname, hage, hemail⟩
  rw [New_of_valid isEmail _ _ _ _ _ hv]
  rcases hc : storage.CreateStudent s student.Name student.Email student.Age with ⟨r, s1⟩
  cases r with
  | error e =>
    simp only [Storage.recording, hc, List.nil_append, true_and]
    intro n hn
    cases hn
  | ok lastId =>
    simp only [Storage.recording, hc, List.nil_append, true_and]
    intro n hn
    cases hn
    simp [WriteJson_fresh, ResponseWriter.status, marshal]

/-- Witness of C2: the record `ann` on the empty table; the caller's id 77 is
ignored and the storage assigns id 1. -/
theorem New_calls_CreateStudent_once_witness :
    (New sampleEmailRule sqliteStorage.recording (emptyTable, []) ResponseWriter.fresh
        { decoded := .ok ann, pathId := "" }).2 =
      ((sqliteStorage.CreateStudent emptyTable "Ann" "ann@x.com" 30).2,
        [StorageCall.CreateStudent "Ann" "ann@x.com" 30]) ∧
    ∀ n : Int, (sqliteStorage.CreateStudent emptyTable "Ann" "ann@x.com" 30).1 = .ok n →
      (New sampleEmailRule sqliteStorage.recording (emptyTable, []) ResponseWriter.fresh
          { decoded := .ok ann, pathId := "" }).1.status = some 201 ∧
      (New sampleEmailRule sqliteStorage.recording (emptyTable, []) ResponseWriter.fresh
          { decoded := .ok ann, pathId := "" }).1.body = [Payload.idMap [("id", n)]] ∧
      marshal (Payload.idMap [("id", n)]) = Json.object [("id", Json.number n)] :=
  New_calls_CreateStudent_once sampleEmailRule sqliteStorage emptyTable ann ""
    (by decide) (by decide) (by decide)

/-- C10. `ValidationError` returns status "Error" and, as error text, the
", "-joined list of one message per violation in the violations' order; the
message of a violation is "field <Field> is required files" when its tag is
`required` and "field <Field> is invalid " for every other tag; no violation gives
the empty text. -/
theorem ValidationError_joins_one_message_per_violation (errs : List FieldError) :
    (ValidationError errs).Status = "Error" ∧
    (∃ msgs : List String,
      (ValidationError errs).Error = ", ".intercalate msgs ∧
      List.Forall₂
        (fun e m =>
          m = (if e.actualTag = "required" then "field " ++ e.field ++ " is required files"
            else "field " ++ e.field ++ " is invalid ") ∧ Names m e.field)
        errs msgs) ∧
    (ValidationError []).Error = "" := by
  refine ⟨by simp [ValidationError_eq], ⟨errs.map violationMessage, ?_, ?_⟩, ?_⟩
  · simp [ValidationError_eq]
  · rw [List.forall₂_map_right_iff]
    apply List.forall₂_same.mpr
    intro e _
    refine ⟨rfl, ?_⟩
    by_cases ht : e.actualTag = "required"
    · exact ⟨"field ", " is required files", by simp [violationMessage, ht]⟩
    · exact ⟨"field ", " is invalid ", by simp [violationMessage, ht]⟩
  · simp [ValidationError_eq, String.intercalate]

theorem largestId_ge :
    ∀ (rows : List Row) (r : Row), r ∈ rows → ∃ m : Int, largestId rows = some m ∧ r.id ≤ m
  | [], _, h => by cases h
  | x :: rows, r, h => by
    rcases List.mem_cons.mp h with rfl | h
    · cases hl : largestId rows with
      | none => exact ⟨r.id, by simp [largestId, hl], le_refl _⟩
      | some m => exact ⟨max r.id m, by simp [largestId, hl], le_max_left _ _⟩
    · obtain ⟨m, hm, hle⟩ := largestId_ge rows r h
      exact ⟨max x.id m, by simp [largestId, hm], le_trans hle (le_max_right _ _)⟩

theorem newRowid_fresh (t : Table) (n : Int) (h : newRowid t = some n) :
    ∀ r ∈ t.rows, r.id < n := by
  intro r hr
  obtain ⟨m, hm, hle⟩ := largestId_ge t.rows r hr
  simp only [newRowid, hm] at h
  by_cases hc : some m = some maxRowid ∨ t.seq = maxRowid
  · rw [if_pos hc] at h
    cases h
  · rw [if_neg hc] at h
    simp only [Option.some.injEq] at h
    have := le_max_left (m + 1) (t.seq + 1)
    omega

theorem sqlite_CreateStudent (t : Table) (name email : String) (age : Int) :
    sqliteStorage.CreateStudent t name email age =
      match newRowid t with
      | none => (.error (.driver 13 13 0 "database or disk is full"), t)
      | some id =>
        (.ok id,
          { rows := t.rows ++ [{ id := id, name := name, email := email, age := age }],
            seq := id }) := by
  simp only [sqliteStorage, Sqlite.storage, Sqlite.CreateStudent, sqlite3]
  cases newRowid t <;> simp

theorem sqlite_GetStudentById (t : Table) (id : Int) :
    sqliteStorage.GetStudentById t id =
      (match t.rows.filter (fun r => r.id = id) with
        | [] => .error (.errorString ("student with id " ++ fmtD id ++ " not found"))
        | r :: _ => .ok { Id := r.id, Name := r.name, Email := r.email, Age := r.age },
        t) := by
  simp only [sqliteStorage, Sqlite.storage, Sqlite.GetStudentById, sqlite3, queryRowScan]
  cases hf : t.rows.filter (fun r => r.id = id) with
  | nil => simp
  | cons r rs => simp [Row.values, scanStudent, scanInt, scanString]

theorem query_error_ne_not_found (x y : String) :
    "query error: " ++ x ≠ "student with id " ++ y := by
  intro h
  have h1 := congrArg (fun s => s.data.head?) h
  simp at h1

/-- C3. On the SQLite table: when `CreateStudent(name, email, age)` returns id
`n` without error, `GetStudentById(n)` on the resulting store returns without
error the record `{Id: n, Name: name, Email: email, Age: age}`. -/
theorem create_then_get_returns_record (t t1 : Table) (name email : String) (age n : Int)
    (h : sqliteStorage.CreateStudent t name email age = (.ok n, t1)) :
    sqliteStorage.GetStudentById t1 n =
      (.ok { Id := n, Name := name, Email := email, Age := age }, t1) := by
  rw [sqlite_CreateStudent] at h
  cases hn : newRowid t with
  | none => simp [hn] at h
  | some id =>
    simp only [hn, Prod.mk.injEq, Except.ok.injEq] at h
    obtain ⟨rfl, rfl⟩ := h
    have hold : t.rows.filter (fun r => r.id = id) = [] := by
      rw [List.filter_eq_nil_iff]
      intro r hr
      have := newRowid_fresh t id hn r hr
      simp only [decide_eq_true_eq]
      omega
    rw [sqlite_GetStudentById]
    simp [List.filter_append, hold]

/-- Witness of C3: the first insert into the empty table gets id 1 and is read
back under that id. -/
theorem create_then_get_returns_record_witness :
    sqliteStorage.GetStudentById
        { rows := [{ id := 1, name := "Ann", email := "ann@x.com", age := 30 }], seq := 1 } 1 =
      (.ok { Id := 1, Name := "Ann", Email := "ann@x.com", Age := 30 },
        { rows := [{ id := 1, name := "Ann", email := "ann@x.com", age := 30 }], seq := 1 }) :=
  create_then_get_returns_record emptyTable
    { rows := [{ id := 1, name := "Ann", email := "ann@x.com", age := 30 }], seq := 1 }
    "Ann" "ann@x.com" 30 1 rfl

/-- C4 (what the code does). On a table without rows `Sqlite.GetStudents` returns
no error and the `nil` slice; the list-all handler answers 200 and encodes that
`nil` slice, which `encoding/json` renders as `null`, not as the empty array. -/
theorem GetStudents_empty_store_encodes_null (seq : Int) (req : Request) :
    sqliteStorage.GetStudents { rows := [], seq := seq } =
      (.ok Slice.nil, { rows := [], seq := seq }) ∧
    (GetStudents sqliteStorage { rows := [], seq := seq } ResponseWriter.fresh req).1.status =
      some 200 ∧
    (GetStudents sqliteStorage { rows := [], seq := seq } ResponseWriter.fresh req).1.body =
      [Payload.students Slice.nil] ∧
    marshal (Payload.students Slice.nil) = Json.null ∧
    marshal (Payload.students Slice.nil) ≠ Json.array [] := by
  have hs : sqliteStorage.GetStudents { rows := [], seq := seq } =
      (.ok Slice.nil, { rows := [], seq := seq }) := by
    simp [sqliteStorage, Sqlite.storage, Sqlite.GetStudents, sqlite3, Sqlite.scanRows]
  refine ⟨hs, ?_, ?_, rfl, ?_⟩
  · simp [GetStudents, hs, WriteJson_fresh, ResponseWriter.status]
  · simp [GetStudents, hs, WriteJson_fresh]
  · simp [marshal]

/-- C5. On the SQLite table: for a path segment that parses to an id no row
carries, the get-by-id handler answers status 500 (not 200) with the error
envelope whose text is "student with id <id> not found". -/
theorem GetById_absent_id_is_500 (t : Table) (decoded : Except GoError Students)
    (seg : String) (id : Int)
    (hparse : ParseInt seg = .ok id) (habsent : ∀ r ∈ t.rows, r.id ≠ id) :
    (GetById sqliteStorage t ResponseWriter.fresh
        { decoded := decoded, pathId := seg }).1.status = some 500 ∧
    (GetById sqliteStorage t ResponseWriter.fresh
        { decoded := decoded, pathId := seg }).1.status ≠ some 200 ∧
    (GetById sqliteStorage t ResponseWriter.fresh
        { decoded := decoded, pathId := seg }).1.body =
      [Payload.response
        { Status := "Error", Error := "student with id " ++ fmtD id ++ " not found" }] := by
  have hnone : t.rows.filter (fun r => r.id = id) = [] := by
    rw [List.filter_eq_nil_iff]
    intro r hr
    simpa using habsent r hr
  simp [GetById, hparse, sqlite_GetStudentById, hnone, WriteJson_fresh,
    ResponseWriter.status, GeneralError, GoError.Error, StatusError]

/-- Witness of C5: `GET /api/students/999` on a table holding only id 1. -/
theorem GetById_absent_id_is_500_witness :
    (GetById sqliteStorage
        { rows := [{ id := 1, name := "Ann", email := "ann@x.com", age := 30 }], seq := 1 }
        ResponseWriter.fresh { decoded := .error .eof, pathId := "999" }).1.status = some 500 ∧
    (GetById sqliteStorage
        { rows := [{ id := 1, name := "Ann", email := "ann@x.com", age := 30 }], seq := 1 }
        ResponseWriter.fresh { decoded := .error .eof, pathId := "999" }).1.status ≠ some 200 ∧
    (GetById sqliteStorage
        { rows := [{ id := 1, name := "Ann", email := "ann@x.com", age := 30 }], seq := 1 }
        ResponseWriter.fresh { decoded := .error .eof, pathId := "999" }).1.body =
      [Payload.response
        { Status := "Error", Error := "student with id " ++ fmtD 999 ++ " not found" }] :=
  GetById_absent_id_is_500
    { rows := [{ id := 1, name := "Ann", email := "ann@x.com", age := 30 }], seq := 1 }
    (.error .eof) "999" 999 rfl (by decide)

theorem marshalError_ne_envelope (err : GoError) (r : Response) :
    marshal (Payload.goError err) ≠ marshal (Payload.response r) := by
  cases err <;> simp [marshal, marshalError]

/-- C6 (what the code does). When the record is valid and `CreateStudent` fails
with `err`, the create handler answers 500 and encodes the bare error value
`err`; that value is no `response.Response`, and its JSON rendering is not the
rendering of any error envelope. -/
theorem New_storage_failure_encodes_bare_error {σ : Type} (isEmail : String → Bool)
    (storage : Storage σ) (s s1 : σ) (student : Students) (pathId : String) (err : GoError)
    (hvalid : validateStruct isEmail student = [])
    (hfail : storage.CreateStudent s student.Name student.Email student.Age = (.error err, s1)) :
    (New isEmail storage s ResponseWriter.fresh
        { decoded := .ok student, pathId := pathId }).1.status = some 500 ∧
    (New isEmail storage s ResponseWriter.fresh
        { decoded := .ok student, pathId := pathId }).1.body = [Payload.goError err] ∧
    (∀ r : Response, Payload.goError err ≠ Payload.response r) ∧
    (∀ r : Response, marshal (Payload.goError err) ≠ marshal (Payload.response r)) := by
  rw [New_of_valid isEmail _ _ _ _ _ hvalid, hfail]
  refine ⟨by simp [WriteJson_fresh, ResponseWriter.status], by simp [WriteJson_fresh], ?_, ?_⟩
  · intro r h
    cases h
  · exact marshalError_ne_envelope err

/-- Failing input of C6: the record `ann` sent to a table whose rowids are used
up; the body is the driver's error value, rendered
`{"Code":13,"ExtendedCode":13,"SystemErrno":0}`. -/
theorem New_storage_failure_encodes_bare_error_witness :
    (New sampleEmailRule sqliteStorage fullTable ResponseWriter.fresh
        { decoded := .ok ann, pathId := "" }).1.status = some 500 ∧
    (New sampleEmailRule sqliteStorage fullTable ResponseWriter.fresh
        { decoded := .ok ann, pathId := "" }).1.body =
      [Payload.goError (.driver 13 13 0 "database or disk is full")] ∧
    (∀ r : Response,
      Payload.goError (.driver 13 13 0 "database or disk is full") ≠ Payload.response r) ∧
    (∀ r : Response,
      marshal (Payload.goError (.driver 13 13 0 "database or disk is full")) ≠
        marshal (Payload.response r)) :=
  New_storage_failure_encodes_bare_error sampleEmailRule sqliteStorage fullTable fullTable
    ann "" (.driver 13 13 0 "database or disk is full") (by decide) rfl

/-- C7 (what the code does). `WriteJson` sets the header `Content-Type` to the
text "appliaction/json" for every status and payload, and a fresh response is
sent with that header; the text is not the JSON media type "application/json". -/
theorem WriteJson_contentType_is_misspelt (w : ResponseWriter) (status : Int)
    (data : Payload) :
    Header.Get (WriteJson w status data).header "Content-Type" = "appliaction/json" ∧
    (WriteJson ResponseWriter.fresh status data).contentType = some "appliaction/json" ∧
    (WriteJson ResponseWriter.fresh status data).contentType ≠ some "application/json" := by
  refine ⟨?_, ?_, ?_⟩
  · cases hs : w.sent <;>
      simp [WriteJson, ResponseWriter.WriteHeader, ResponseWriter.Encode, Header.Set,
        Header.Get, hs]
  · simp [WriteJson_fresh, ResponseWriter.contentType, Header.Get]
  · simp [WriteJson_fresh, ResponseWriter.contentType, Header.Get]

/-- C8. The get-by-id handler answers status 400 with the error envelope
"invalid id format" exactly when `strconv.ParseInt(id, 10, 64)` rejects the path
segment; in that case the storage receives no call, and otherwise it receives
exactly one call, `GetStudentById` with the parsed integer. -/
theorem GetById_invalid_id_format_iff {σ : Type} (storage : Storage σ) (s : σ)
    (decoded : Except GoError Students) (seg : String) :
    (((GetById storage.recording (s, []) ResponseWriter.fresh
          { decoded := decoded, pathId := seg }).1.status = some 400 ∧
      (GetById storage.recording (s, []) ResponseWriter.fresh
          { decoded := decoded, pathId := seg }).1.body =
        [Payload.response { Status := "Error", Error := "invalid id format" }]) ↔
      ∃ e : NumError, ParseInt seg = .error e) ∧
    ((∃ e : NumError, ParseInt seg = .error e) →
      (GetById storage.recording (s, []) ResponseWriter.fresh
          { decoded := decoded, pathId := seg }).2 = (s, [])) ∧
    (∀ id : Int, ParseInt seg = .ok id →
      (GetById storage.recording (s, []) ResponseWriter.fresh
          { decoded := decoded, pathId := seg }).2 =
        ((storage.GetStudentById s id).2, [StorageCall.GetStudentById id])) := by
  cases hp : ParseInt seg with
  | error e =>
    simp [GetById, hp, WriteJson_fresh, ResponseWriter.status, GeneralError, GoError.Error,
      StatusError]
  | ok id =>
    rcases hg : storage.GetStudentById s id with ⟨r, s1⟩
    cases r <;>
      simp [GetById, hp, hg, Storage.recording, WriteJson_fresh, ResponseWriter.status]

theorem GetStudentById_of_scan_error {σ : Type} (db : SqlDB σ) (s : σ) (id : Int)
    (stmt : Stmt) (e : GoError)
    (hprep : db.Prepare s "SELECT id, name, email, age FROM students WHERE id = ? LIMIT 1" =
      .ok stmt)
    (hq : queryRowScan db s stmt [.integer id] = .error e) :
    Sqlite.GetStudentById db s id =
      if e = .errNoRows then
        .error (.errorString ("student with id " ++ fmtD id ++ " not found"))
      else .error (.wrapError ("query error: " ++ e.Error) e) := by
  simp only [Sqlite.GetStudentById, hprep, hq]

/-- Counterexample to C9 as stated: a failure of statement preparation is
returned as the bare driver error, not wrapped with the "query error: " prefix. -/
theorem GetStudentById_prepare_failure_is_bare :
    Sqlite.GetStudentById droppedTable () 7 =
      .error (.driver 1 1 0 "no such table: students") ∧
    ¬ ∃ e : GoError,
      Sqlite.GetStudentById droppedTable () 7 =
        .error (.wrapError ("query error: " ++ e.Error) e) := by
  refine ⟨rfl, ?_⟩
  rintro ⟨e, he⟩
  simp [Sqlite.GetStudentById, droppedTable] at he

/-- C9 (amended). `Sqlite.GetStudentById` returns a failure of statement
preparation as the bare driver error; it turns an empty query result into the
error "student with id <id> not found"; and it returns every failure of query
execution or row scan (other than `sql.ErrNoRows`) wrapped, with the text
"query error: " followed by the cause's text, a value and a text different from
those of the "not found" error. -/
theorem GetStudentById_error_translation {σ : Type} (db : SqlDB σ) (s : σ) (id : Int) :
    (∀ e : GoError,
      db.Prepare s "SELECT id, name, email, age FROM students WHERE id = ? LIMIT 1" = .error e →
      Sqlite.GetStudentById db s id = .error e) ∧
    (∀ stmt : Stmt,
      db.Prepare s "SELECT id, name, email, age FROM students WHERE id = ? LIMIT 1" = .ok stmt →
      db.Query s stmt [.integer id] = .ok [] →
      Sqlite.GetStudentById db s id =
        .error (.errorString ("student with id " ++ fmtD id ++ " not found"))) ∧
    (∀ (stmt : Stmt) (e : GoError),
      db.Prepare s "SELECT id, name, email, age FROM students WHERE id = ? LIMIT 1" = .ok stmt →
      (db.Query s stmt [.integer id] = .error e ∨
        ∃ row rest, db.Query s stmt [.integer id] = .ok (row :: rest) ∧
          scanStudent row = .error e) →
      e ≠ .errNoRows →
      Sqlite.GetStudentById db s id = .error (.wrapError ("query error: " ++ e.Error) e) ∧
      GoError.wrapError ("query error: " ++ e.Error) e ≠
        .errorString ("student with id " ++ fmtD id ++ " not found") ∧
      (GoError.wrapError ("query error: " ++ e.Error) e).Error ≠
        (GoError.errorString ("student with id " ++ fmtD id ++ " not found")).Error) := by
  refine ⟨?_, ?_, ?_⟩
  · intro e hprep
    simp only [Sqlite.GetStudentById, hprep]
  · intro stmt hprep hq
    have hrow : queryRowScan db s stmt [.integer id] = .error .errNoRows := by
      simp only [queryRowScan, hq]
    rw [GetStudentById_of_scan_error db s id stmt _ hprep hrow]
    simp
  · intro stmt e hprep hq hne
    have hrow : queryRowScan db s stmt [.integer id] = .error e := by
      rcases hq with hq | ⟨row, rest, hq, hscan⟩
      · simp only [queryRowScan, hq]
      · simp only [queryRowScan, hq, hscan]
    rw [GetStudentById_of_scan_error db s id stmt _ hprep hrow, if_neg hne]
    refine ⟨rfl, ?_, ?_⟩
    · intro h
      cases h
    · simp only [GoError.Error, String.append_assoc]
      exact query_error_ne_not_found _ _

/-- An instance of the wrapped case of C9: a query that fails while running. -/
theorem GetStudentById_locked_is_wrapped :
    Sqlite.GetStudentById lockedDB () 7 =
      .error (.wrapError "query error: database is locked"
        (.driver 5 5 0 "database is locked")) := by
  rfl

/-! ## Sample evaluations -/

/-- `strconv.ParseInt` on sample segments: a sign is accepted, the bounds are
those of `int64`, and letters, underscores and the empty text are rejected. -/
theorem ParseInt_samples :
    ParseInt "42" = .ok 42 ∧ ParseInt "+7" = .ok 7 ∧
    ParseInt "-9223372036854775808" = .ok (-9223372036854775808) ∧
    ParseInt "9223372036854775807" = .ok 9223372036854775807 ∧
    ParseInt "9223372036854775808" = .error .outOfRange ∧
    ParseInt "-9223372036854775809" = .error .outOfRange ∧
    ParseInt "" = .error .invalid ∧ ParseInt "-" = .error .invalid ∧
    ParseInt "1_0" = .error .invalid ∧ ParseInt "12a" = .error .invalid :=
  ⟨rfl, rfl, rfl, rfl, rfl, rfl, rfl, rfl, rfl, rfl⟩

/-- The spec's scenario on the get-by-id route: `abc` is refused with 400 before
any storage call, `1` is looked up once and found. -/
theorem GetById_samples :
    GetById sqliteStorage.recording
        ({ rows := [{ id := 1, name := "Ann", email := "ann@x.com", age := 30 }], seq := 1 }, [])
        ResponseWriter.fresh { decoded := .error .eof, pathId := "abc" } =
      (WriteJson ResponseWriter.fresh 400
          (.response { Status := "Error", Error := "invalid id format" }),
        ({ rows := [{ id := 1, name := "Ann", email := "ann@x.com", age := 30 }], seq := 1 },
          [])) ∧
    GetById sqliteStorage.recording
        ({ rows := [{ id := 1, name := "Ann", email := "ann@x.com", age := 30 }], seq := 1 }, [])
        ResponseWriter.fresh { decoded := .error .eof, pathId := "1" } =
      (WriteJson ResponseWriter.fresh 200
          (.student { Id := 1, Name := "Ann", Age := 30, Email := "ann@x.com" }),
        ({ rows := [{ id := 1, name := "Ann", email := "ann@x.com", age := 30 }], seq := 1 },
          [StorageCall.GetStudentById 1])) :=
  ⟨rfl, rfl⟩

/-- The text `ValidationError` builds for the record `nobody`. -/
theorem ValidationError_sample :
    (ValidationError (validateStruct sampleEmailRule nobody)).Error =
      "field Name is required files, field Age is invalid , field Email is invalid " := by
  decide

/-- Two creates with the same payload on the empty table get the ids 1 and 2. -/
theorem CreateStudent_samples :
    sqliteStorage.CreateStudent emptyTable "Ann" "ann@x.com" 30 =
      (.ok 1, { rows := [{ id := 1, name := "Ann", email := "ann@x.com", age := 30 }],
                seq := 1 }) ∧
    (sqliteStorage.CreateStudent
        { rows := [{ id := 1, name := "Ann", email := "ann@x.com", age := 30 }], seq := 1 }
        "Ann" "ann@x.com" 30).1 = .ok 2 :=
  ⟨rfl, rfl⟩

end StudentsApi
